import Mathlib

/-!
Verification development for the aisle repository (an in-notebook
conversational-AI assistant).  The Python sources are shallowly embedded:
pure functions become Lean functions, methods on the stateful classes
Backend, Messages and Logs become functions from an explicit state value to
the new state together with the returned (success, message) pair, and the
two network calls are modelled by passing the response outcome as an input.
-/

set_option maxRecDepth 10000

namespace Aisle

/-- The apostrophe character as a one-character string; message texts from
the source that quote words with apostrophes are rebuilt with it. -/
def sq : String := String.mk [Char.ofNat 39]

/-- A dynamically typed Python value, as far as the type checks in the
source distinguish them: bool, int, float (modelled as a rational) and str. -/
inductive PyVal where
  | pybool (b : Bool)
  | pyint (n : ℤ)
  | pyfloat (q : ℚ)
  | pystr (s : String)
deriving DecidableEq

/-- Python isinstance(v, int): true for int values and for bool values,
since bool is a subclass of int in Python. -/
def isinstance_int : PyVal → Bool
  | .pybool _ => true
  | .pyint _ => true
  | _ => false

/-- Python isinstance(v, float): true only for float values. -/
def isinstance_float : PyVal → Bool
  | .pyfloat _ => true
  | _ => false

/-- Pad a digit string with leading zeros to the given width. -/
def padZeros (w : ℕ) (s : String) : String :=
  String.mk (List.replicate (w - s.length) (Char.ofNat 48)) ++ s

/-- Decimal rendering of a rational standing for a Python float, matching
repr of the finite decimal values the program handles: an integral value
prints with a trailing .0, any other decimally representable value prints
its shortest decimal expansion. -/
def pyFloatStr (q : ℚ) : String :=
  let sgn := if q.num < 0 then "-" else ""
  let n := q.num.natAbs
  let d := q.den
  match (List.range 18).find? (fun k => (n * 10 ^ k) % d == 0) with
  | some 0 => sgn ++ toString n ++ ".0"
  | some (k + 1) =>
      let m := n * 10 ^ (k + 1) / d
      let ip := toString (m / 10 ^ (k + 1))
      let fr := padZeros (k + 1) (toString (m % 10 ^ (k + 1)))
      sgn ++ ip ++ "." ++ fr
  | none => sgn ++ toString n ++ "/" ++ toString d

/-- Python str() and f-string rendering of a dynamic value: True/False for
bools, decimal notation for ints and floats. -/
def pyStr : PyVal → String
  | .pybool true => "True"
  | .pybool false => "False"
  | .pyint n => toString n
  | .pyfloat q => pyFloatStr q
  | .pystr s => s

/-- The backend configuration state (class Backend in aisle/_backend.py).
The seed field keeps the dynamic value that passed the isinstance int
check, which bools also pass. -/
structure Backend where
  url : String
  model : String
  stream : Bool
  seed : PyVal
  temperature : ℚ
  reproducible : Bool
deriving DecidableEq

/-- The default backend configuration, from the class attribute defaults. -/
def Backend.init : Backend :=
  { url := "http://example.com/aisle/", model := "model:default", stream := false,
    seed := PyVal.pyint 0, temperature := mkRat 2 5, reproducible := false }

/-- Success message of update_seed. -/
def seedSetMsg (v : PyVal) : String :=
  let s := pyStr v
  s!"Seed is now set to {s}."

/-- Failure message of update_seed. -/
def seedTypeErrMsg (v : PyVal) : String :=
  let s := pyStr v
  s!"Seed {s} type error, must be an integer (int)."

/-- Success message of update_temperature. -/
def tempSetMsg (q : ℚ) : String :=
  let s := pyFloatStr q
  s!"Temperature is now set to {s}."

/-- Failure message of update_temperature. -/
def tempTypeErrMsg (v : PyVal) : String :=
  let s := pyStr v
  s!"Temperature {s} type error, must be a float."

/-- Backend.update_seed from aisle/_backend.py: reject the candidate unless
isinstance(candidate, int), else store it and report the new seed. -/
def Backend.update_seed (self : Backend) (new_seed : PyVal) : Backend × Bool × String :=
  if isinstance_int new_seed then
    ({ self with seed := new_seed }, true, seedSetMsg new_seed)
  else
    (self, false, seedTypeErrMsg new_seed)

/-- Backend.update_temperature from aisle/_backend.py: reject the candidate
unless isinstance(candidate, float), else clamp it into the unit interval
with max(0., min(value, 1.)), store it and report the new temperature. -/
def Backend.update_temperature (self : Backend) (new_temperature : PyVal) :
    Backend × Bool × String :=
  match new_temperature with
  | PyVal.pyfloat q =>
      let value := max 0 (min q 1)
      ({ self with temperature := value }, true, tempSetMsg value)
  | v => (self, false, tempTypeErrMsg v)

/-- C5: update_temperature fails with a type mismatch message and leaves the
temperature unchanged unless the candidate is a float; for a float
candidate it sets the temperature to max(0, min(candidate, 1)) and returns
success with the message naming the stored temperature. -/
theorem update_temperature_spec (st : Backend) (v : PyVal) :
    (isinstance_float v = false →
      st.update_temperature v = (st, false, tempTypeErrMsg v)) ∧
    (∀ q : ℚ, v = PyVal.pyfloat q →
      st.update_temperature v =
        ({ st with temperature := max 0 (min q 1) }, true, tempSetMsg (max 0 (min q 1)))) := by
  constructor
  · intro h
    cases v <;> simp [isinstance_float] at h <;> rfl
  · rintro q rfl
    rfl

/-- Witness for C5 at concrete inputs: 1.5 clamps to exactly 1.0 with the
literal success message, minus 0.3 clamps to exactly 0.0, and an int
candidate is rejected with the literal type error message, leaving the
state unchanged. -/
theorem update_temperature_spec_witness :
    (Backend.init.update_temperature (PyVal.pyfloat (mkRat 3 2))).1.temperature = 1 ∧
    (Backend.init.update_temperature (PyVal.pyfloat (mkRat 3 2))).2.2 =
      "Temperature is now set to 1.0." ∧
    (Backend.init.update_temperature (PyVal.pyfloat (mkRat (-3) 10))).1.temperature = 0 ∧
    (Backend.init.update_temperature (PyVal.pyint 2)).1 = Backend.init ∧
    (Backend.init.update_temperature (PyVal.pyint 2)).2.1 = false ∧
    (Backend.init.update_temperature (PyVal.pyint 2)).2.2 =
      "Temperature 2 type error, must be a float." := by
  have hm1 : max (0 : ℚ) (min (mkRat 3 2) 1) = 1 := by
    rw [min_eq_right (by rw [Rat.mkRat_eq_div]; norm_num : (1 : ℚ) ≤ mkRat 3 2)]
    exact max_eq_right zero_le_one
  have hm2 : max (0 : ℚ) (min (mkRat (-3) 10) 1) = 0 := by
    rw [min_eq_left (by rw [Rat.mkRat_eq_div]; norm_num : (mkRat (-3) 10 : ℚ) ≤ 1)]
    exact max_eq_left (by rw [Rat.mkRat_eq_div]; norm_num)
  have h1 := (update_temperature_spec Backend.init (PyVal.pyfloat (mkRat 3 2))).2
      (mkRat 3 2) rfl
  have h2 := (update_temperature_spec Backend.init (PyVal.pyfloat (mkRat (-3) 10))).2
      (mkRat (-3) 10) rfl
  have h3 := (update_temperature_spec Backend.init (PyVal.pyint 2)).1 (by decide)
  rw [hm1] at h1
  rw [hm2] at h2
  refine ⟨?_, ?_, ?_, ?_, ?_, ?_⟩
  · rw [h1]
  · rw [h1]; decide
  · rw [h2]
  · rw [h3]
  · rw [h3]
  · rw [h3]; decide

/-- One entry of the in-memory log: the severity level letter, the
timestamp text and the message text, the dict fields of aisle/_logs.py. -/
structure LogEntry where
  level : String
  timestamp : String
  message : String
deriving DecidableEq

/-- Logs.info: append an Info entry; the timestamp produced by
generate_timestamp at call time is passed explicitly. -/
def Logs.info (logs : List LogEntry) (ts message : String) : List LogEntry :=
  logs ++ [{ level := "I", timestamp := ts, message := message }]

/-- Logs.warning: append a Warning entry (also echoed to the console). -/
def Logs.warning (logs : List LogEntry) (ts message : String) : List LogEntry :=
  logs ++ [{ level := "W", timestamp := ts, message := message }]

/-- Logs.error: append an Error entry (also echoed to the console). -/
def Logs.error (logs : List LogEntry) (ts message : String) : List LogEntry :=
  logs ++ [{ level := "E", timestamp := ts, message := message }]

/-- Python list slicing l[i:] for an int start: a negative start counts
from the end, clamped at zero; a nonnegative start drops that many
elements. -/
def pySliceFrom {α : Type*} (l : List α) (i : ℤ) : List α :=
  if i < 0 then l.drop (l.length + i).toNat else l.drop i.toNat

/-- The console color code for a level letter: the dict lookup with default
30 in Logs.show. -/
def levelColor (level : String) : String :=
  if level = "I" then "32"
  else if level = "W" then "33"
  else if level = "E" then "31"
  else "30"

/-- One displayed log line of Logs.show: level and timestamp wrapped in the
level color, then the message. -/
def logLine (e : LogEntry) : String :=
  let c := levelColor e.level
  let l := e.level
  let t := e.timestamp
  let m := e.message
  s!"\x1b[{c}m[{l} {t}]\x1b[0m {m}"

/-- The placeholder line Logs.show prints on an empty log. -/
def noLogsLine : String := "\x1b[90m(No logs available)\x1b[0m"

/-- The header line Logs.show prints; it names the requested limit. -/
def headerLine (item_number : ℤ) : String :=
  let n := toString item_number
  s!"\x1b[90m(Displaying the most recent {n} records)\x1b[0m"

/-- Logs.show from aisle/_logs.py, as the list of printed lines: the
placeholder when the log is empty, else the header followed by the slice
logs[-item_number:] when the log is longer than the limit (the whole log
otherwise), each entry rendered in its level color. -/
def Logs.showItems (logs : List LogEntry) (item_number : ℤ) : List String :=
  if logs.isEmpty then [noLogsLine]
  else
    let recent_logs :=
      if (logs.length : ℤ) > item_number then pySliceFrom logs (-item_number) else logs
    headerLine item_number :: recent_logs.map logLine

/-- The display claim C3 describes: a header naming how many entries are
shown, then exactly min(limit, total) most recent entries in original
order. -/
def showSpecC3 (logs : List LogEntry) (limit : ℤ) : List String :=
  if logs.isEmpty then [noLogsLine]
  else
    let k := min limit.toNat logs.length
    headerLine (k : ℤ) :: (logs.drop (logs.length - k)).map logLine

/-- C3 counterexample: on a one-entry log with limit 20 the code prints a
header naming 20 although exactly one entry is shown, and with limit 0 on a
nonempty log the code prints every entry although min(limit, total) is
zero; both displays differ from the one the claim describes. -/
theorem logs_show_counterexample :
    Logs.showItems [⟨"I", "t1", "m1"⟩] 20 ≠ showSpecC3 [⟨"I", "t1", "m1"⟩] 20 ∧
    Logs.showItems [⟨"I", "t1", "m1"⟩] 20 =
      [headerLine 20, logLine ⟨"I", "t1", "m1"⟩] ∧
    showSpecC3 [⟨"I", "t1", "m1"⟩] 20 = [headerLine 1, logLine ⟨"I", "t1", "m1"⟩] ∧
    Logs.showItems [⟨"I", "t1", "m1"⟩] 0 ≠ showSpecC3 [⟨"I", "t1", "m1"⟩] 0 ∧
    (Logs.showItems [⟨"I", "t1", "m1"⟩] 0).length = 2 ∧
    (showSpecC3 [⟨"I", "t1", "m1"⟩] 0).length = 1 := by
  refine ⟨?_, ?_, ?_, ?_, ?_, ?_⟩ <;> decide

/-- C3 amended: for every log and every limit of at least one, Logs.show
prints the single placeholder line when the log is empty; otherwise it
prints a header naming the requested limit (not the number actually shown),
followed by exactly min(limit, total) most recent entries in original
chronological order, each colored by level: Info green 32, Warning yellow
33, Error red 31, any other level the neutral default 30.  The limit-zero
case deviates as well: show(0) on a nonempty log prints the header and
every entry, because the slice logs[-0:] is the whole list. -/
theorem logs_show_spec (logs : List LogEntry) (n : ℤ) (hn : 1 ≤ n) :
    (logs = [] → Logs.showItems logs n = [noLogsLine]) ∧
    (logs ≠ [] →
      Logs.showItems logs n =
        headerLine n ::
          (logs.drop (logs.length - min n.toNat logs.length)).map logLine ∧
      (Logs.showItems logs n).length = 1 + min n.toNat logs.length) ∧
    (logs ≠ [] → Logs.showItems logs 0 = headerLine 0 :: logs.map logLine) ∧
    levelColor "I" = "32" ∧ levelColor "W" = "33" ∧ levelColor "E" = "31" ∧
    levelColor "Q" = "30" := by
  refine ⟨?_, ?_, ?_, by decide, by decide, by decide, by decide⟩
  · intro h
    subst h
    rfl
  · intro hne
    have hempty : logs.isEmpty = false := by
      cases logs with
      | nil => exact absurd rfl hne
      | cons e es => rfl
    have hmain : Logs.showItems logs n =
        headerLine n ::
          (logs.drop (logs.length - min n.toNat logs.length)).map logLine := by
      unfold Logs.showItems pySliceFrom
      rw [hempty]
      by_cases hlt : (logs.length : ℤ) > n
      · have hneg : -n < 0 := by omega
        have harith : (logs.length + -n).toNat =
            logs.length - min n.toNat logs.length := by omega
        simp only [if_pos hlt, if_neg (not_lt.mpr (le_of_lt hneg)), Bool.false_eq_true,
          if_false, if_pos hneg, harith]
      · have harith : logs.length - min n.toNat logs.length = 0 := by omega
        simp only [if_neg hlt, harith, List.drop_zero, Bool.false_eq_true, if_false]
    refine ⟨hmain, ?_⟩
    rw [hmain]
    simp only [List.length_cons, List.length_map, List.length_drop]
    omega
  · intro hne
    have hempty : logs.isEmpty = false := by
      cases logs with
      | nil => exact absurd rfl hne
      | cons e es => rfl
    have hpos : (logs.length : ℤ) > 0 := by
      cases logs with
      | nil => exact absurd rfl hne
      | cons e es => simp only [List.length_cons]; omega
    unfold Logs.showItems pySliceFrom
    rw [hempty]
    simp only [Bool.false_eq_true, if_false, if_pos hpos, neg_zero,
      if_neg (lt_irrefl (0 : ℤ)), Int.toNat_zero, List.drop_zero]

/-- Witness for the amended C3: on a five-entry log with limit 3 exactly the
last three entries are shown after the header, in order; the empty log
shows only the placeholder. -/
theorem logs_show_spec_witness :
    Logs.showItems [] 3 = [noLogsLine] ∧
    Logs.showItems
        [⟨"I", "1", "a"⟩, ⟨"W", "2", "b"⟩, ⟨"E", "3", "c"⟩, ⟨"I", "4", "d"⟩,
          ⟨"Q", "5", "e"⟩] 3 =
      [headerLine 3, logLine ⟨"E", "3", "c"⟩, logLine ⟨"I", "4", "d"⟩,
        logLine ⟨"Q", "5", "e"⟩] := by
  constructor
  · exact (logs_show_spec [] 3 (by decide)).1 rfl
  · have h :=
      ((logs_show_spec
        [⟨"I", "1", "a"⟩, ⟨"W", "2", "b"⟩, ⟨"E", "3", "c"⟩, ⟨"I", "4", "d"⟩,
          ⟨"Q", "5", "e"⟩] 3 (by decide)).2.1 (by decide)).1
    rw [h]
    decide

/-- C6: update_seed fails with a type mismatch message and leaves the seed
unchanged unless isinstance(candidate, int) holds; otherwise it stores the
candidate and returns success with the message naming the new seed. -/
theorem update_seed_spec (st : Backend) (v : PyVal) :
    (isinstance_int v = false →
      st.update_seed v = (st, false, seedTypeErrMsg v)) ∧
    (isinstance_int v = true →
      st.update_seed v = ({ st with seed := v }, true, seedSetMsg v)) := by
  constructor
  · intro h
    simp [Backend.update_seed, h]
  · intro h
    simp [Backend.update_seed, h]

/-- Witness for C6 at the concrete input 3.5: the update fails with the
literal type error message and the seed keeps its prior value. -/
theorem update_seed_spec_witness :
    (Backend.init.update_seed (PyVal.pyfloat (mkRat 7 2))).2.1 = false ∧
    (Backend.init.update_seed (PyVal.pyfloat (mkRat 7 2))).2.2 =
      "Seed 3.5 type error, must be an integer (int)." ∧
    (Backend.init.update_seed (PyVal.pyfloat (mkRat 7 2))).1.seed = PyVal.pyint 0 ∧
    (Backend.init.update_seed (PyVal.pyint 42)).2.2 = "Seed is now set to 42." := by
  have h1 := (update_seed_spec Backend.init (PyVal.pyfloat (mkRat 7 2))).1 (by decide)
  have h2 := (update_seed_spec Backend.init (PyVal.pyint 42)).2 (by decide)
  refine ⟨?_, ?_, ?_, ?_⟩
  · rw [h1]
  · rw [h1]; decide
  · rw [h1]; rfl
  · rw [h2]; decide

/-- C10: a bool candidate passes the isinstance int check of update_seed,
so the update succeeds, stores the bool as the seed, and the message
renders it the way Python prints bools, for example Seed is now set to
True. -/
theorem update_seed_bool (st : Backend) (b : Bool) :
    st.update_seed (PyVal.pybool b) =
      ({ st with seed := PyVal.pybool b }, true, seedSetMsg (PyVal.pybool b)) ∧
    seedSetMsg (PyVal.pybool true) = "Seed is now set to True." ∧
    seedSetMsg (PyVal.pybool false) = "Seed is now set to False." := by
  refine ⟨?_, by decide, by decide⟩
  cases b <;> rfl

/-- A file system for the one disk read the program performs: a table from
path to file bytes. -/
def FS : Type := List (String × List ℕ)

/-- The base64 alphabet. -/
def base64Chars : List Char :=
  "ABCDEFGHIJKLMNOPQRSTUVWXYZabcdefghijklmnopqrstuvwxyz0123456789+/".toList

/-- One base64 digit. -/
def b64char (n : ℕ) : Char := base64Chars.getD n (Char.ofNat 61)

/-- Standard base64 of a byte list, as base64.b64encode renders it: groups
of three bytes become four digits, with = padding for a short final group. -/
def base64Encode : List ℕ → String
  | [] => ""
  | [a] => String.mk [b64char (a / 4), b64char (a % 4 * 16)] ++ "=="
  | [a, b] =>
      String.mk [b64char (a / 4), b64char (a % 4 * 16 + b / 16),
        b64char (b % 16 * 4)] ++ "="
  | a :: b :: c :: rest =>
      String.mk [b64char (a / 4), b64char (a % 4 * 16 + b / 16),
        b64char (b % 16 * 4 + c / 64), b64char (c % 64)] ++ base64Encode rest

/-- image2base64 from aisle/_general.py over an explicit file system:
validate that the path text is not blank, that its lowercased form ends in
a supported extension, and that the file exists, then read and encode it.
The IOError branch of the source is unreachable here because the file
table read is total. -/
def image2base64 (fs : FS) (image_path : String) : Bool × String :=
  if image_path.trim.isEmpty then
    (false, "The specified image path is invalid.")
  else if !([".jpg", ".jpeg", ".png"].any fun ext => image_path.toLower.endsWith ext) then
    (false,
      s!"The file {sq}{image_path}{sq} is not a valid image format. Supported formats are: .jpg, .jpeg, .png.")
  else
    match fs.lookup image_path with
    | none => (false, s!"Image file {sq}{image_path}{sq} not found.")
    | some bytes => (true, base64Encode bytes)

/-- A chat message dict: role, content, and the optional images list a user
message carries when an image is attached. -/
structure Message where
  role : String
  content : String
  images : Option (List String) := none
deriving DecidableEq

/-- The conversation history state of class Messages in aisle/_messages.py:
the message list, the session counter, and the two role counters. -/
structure Messages where
  messages : List Message
  session_counter : ℕ
  user_counter : ℕ
  ai_counter : ℕ
deriving DecidableEq

/-- The initial history: no messages, session 1, both role counters 0. -/
def Messages.init : Messages :=
  { messages := [], session_counter := 1, user_counter := 0, ai_counter := 0 }

/-- The success message of assemble. -/
def userLoadedMsg : String := "User content has been loaded."

/-- Messages.assemble from aisle/_messages.py: build the user message dict;
when a truthy image path is given (None and the empty string are falsy),
encode it — returning the encoding failure message and appending nothing
when encoding fails — and attach the payload; then append the message and
count one more user message. -/
def Messages.assemble (fs : FS) (self : Messages) (content : String)
    (image_path : Option String) : Messages × Bool × String :=
  let user_message : Message := { role := "user", content := content }
  match image_path with
  | some p =>
      if p.isEmpty then
        ({ self with
            messages := self.messages ++ [user_message],
            user_counter := self.user_counter + 1 }, true, userLoadedMsg)
      else
        let r := image2base64 fs p
        if r.1 then
          ({ self with
              messages := self.messages ++ [{ user_message with images := some [r.2] }],
              user_counter := self.user_counter + 1 }, true, userLoadedMsg)
        else
          (self, false, r.2)
  | none =>
      ({ self with
          messages := self.messages ++ [user_message],
          user_counter := self.user_counter + 1 }, true, userLoadedMsg)

/-- Messages.clear from aisle/_messages.py: drop every message, advance the
session counter, reset both role counters. -/
def Messages.clear (self : Messages) : Messages :=
  { messages := [], session_counter := self.session_counter + 1,
    user_counter := 0, ai_counter := 0 }

/-- The options object of the chat request: the temperature, and the seed
only when the conversation is reproducible. -/
structure ChatOptions where
  temperature : ℚ
  seed : Option PyVal
deriving DecidableEq

/-- The JSON payload Messages.launch posts to the chat endpoint. -/
structure Payload where
  model : String
  messages : List Message
  stream : Bool
  options : ChatOptions
deriving DecidableEq

/-- The outcome of the post to the chat endpoint, as far as launch inspects
it: a parsed JSON body with its optional message field, or a
RequestException carrying its text. -/
inductive HttpResult where
  | ok (message : Option Message)
  | exn (e : String)
deriving DecidableEq

/-- The request payload launch builds: model, the full message sequence,
the stream flag and the options object. -/
def Messages.payload (self : Messages) (backend : Backend) : Payload :=
  { model := backend.model, messages := self.messages, stream := backend.stream,
    options := { temperature := backend.temperature,
                 seed := if backend.reproducible then some backend.seed else none } }

/-- The success message of launch. -/
def aiReceivedMsg : String := "AI response has been received."

/-- The failure message of launch when the response body lacks the message
field (the quoted word carries apostrophes in the source). -/
def msgFieldMissingMsg : String :=
  s!"The {sq}message{sq} field was not found in the response."

/-- The failure message of launch on a RequestException. -/
def backendErrMsg (e : String) : String :=
  s!"An error occurred while requesting the backend: {e}"

/-- Messages.launch from aisle/_messages.py: build the payload and post it
(the posted payload is returned first so theorems can speak about the
request); on a successful response append the message field when present
and count one more assistant response, else report the missing field
without touching the history; a request exception is reported with its
text. -/
def Messages.launch (self : Messages) (backend : Backend) (resp : HttpResult) :
    Payload × Messages × Bool × String :=
  let data := self.payload backend
  match resp with
  | HttpResult.ok (some m) =>
      (data,
        { self with
            messages := self.messages ++ [m],
            ai_counter := self.ai_counter + 1 },
        true, aiReceivedMsg)
  | HttpResult.ok none => (data, self, false, msgFieldMissingMsg)
  | HttpResult.exn e => (data, self, false, backendErrMsg e)

/-- C1: against a successful response whose body carries a message field,
launch appends exactly that message — the history grows by exactly one —
counts exactly one more assistant response and reports success; against a
successful response without the field it reports the missing field and
leaves the history and the assistant counter unchanged. -/
theorem launch_spec (self : Messages) (backend : Backend) :
    (∀ m : Message,
      self.launch backend (HttpResult.ok (some m)) =
        (self.payload backend,
          { self with
              messages := self.messages ++ [m],
              ai_counter := self.ai_counter + 1 },
          true, aiReceivedMsg) ∧
      (self.launch backend (HttpResult.ok (some m))).2.1.messages.length =
        self.messages.length + 1 ∧
      (self.launch backend (HttpResult.ok (some m))).2.1.ai_counter =
        self.ai_counter + 1) ∧
    (self.launch backend (HttpResult.ok none) =
      (self.payload backend, self, false, msgFieldMissingMsg)) := by
  refine ⟨fun m => ⟨rfl, ?_, rfl⟩, rfl⟩
  show (self.messages ++ [m]).length = self.messages.length + 1
  simp

/-- On a failed assemble the history state is untouched. -/
theorem assemble_fail_state (fs : FS) (self : Messages) (content : String)
    (ip : Option String) (h : (self.assemble fs content ip).2.1 = false) :
    (self.assemble fs content ip).1 = self := by
  unfold Messages.assemble at h ⊢
  cases ip with
  | none => simp at h
  | some p =>
      by_cases hp : p.isEmpty
      · simp [hp] at h
      · by_cases he : (image2base64 fs p).1
        · simp [hp, he] at h
        · simp [hp, he]

/-- C7 counterexample: the empty string is an image path whose encoding
fails — image2base64 rejects it as an invalid path — yet assemble treats
it as falsy, skips encoding, appends the plain user message and succeeds,
growing the history and the user counter. -/
theorem assemble_empty_path_counterexample :
    (image2base64 [] "").1 = false ∧
    (Messages.assemble [] Messages.init "hi" (some "")).2.1 = true ∧
    (Messages.assemble [] Messages.init "hi" (some "")).1.messages.length =
      Messages.init.messages.length + 1 ∧
    (Messages.assemble [] Messages.init "hi" (some "")).1.user_counter =
      Messages.init.user_counter + 1 := by
  refine ⟨?_, ?_, ?_, ?_⟩ <;> with_unfolding_all decide

/-- C7 amended: for every nonempty image path, assemble returns the
encoding failure verbatim and leaves the history length and the user
counter untouched when encoding fails, and on encoding success appends the
user message with the encoded payload attached, counts it, and reports
success; the empty-string path is falsy in Python and is treated as no
image at all, so the plain message is appended and assemble succeeds. -/
theorem assemble_spec (fs : FS) (self : Messages) (content : String) (p : String) :
    (p ≠ "" → (image2base64 fs p).1 = false →
      self.assemble fs content (some p) = (self, false, (image2base64 fs p).2)) ∧
    (p ≠ "" → (image2base64 fs p).1 = true →
      self.assemble fs content (some p) =
        ({ self with
            messages := self.messages ++
              [{ role := "user", content := content,
                 images := some [(image2base64 fs p).2] }],
            user_counter := self.user_counter + 1 }, true, userLoadedMsg)) ∧
    (p = "" →
      self.assemble fs content (some p) =
        ({ self with
            messages := self.messages ++ [{ role := "user", content := content }],
            user_counter := self.user_counter + 1 }, true, userLoadedMsg)) := by
  refine ⟨?_, ?_, ?_⟩
  · intro hp hf
    have hpe : p.isEmpty = false := by
      cases he : p.isEmpty
      · rfl
      · exact absurd ((String.isEmpty_iff p).mp he) hp
    simp only [Messages.assemble, hpe, Bool.false_eq_true, if_false, hf]
  · intro hp ht
    have hpe : p.isEmpty = false := by
      cases he : p.isEmpty
      · rfl
      · exact absurd ((String.isEmpty_iff p).mp he) hp
    simp only [Messages.assemble, hpe, Bool.false_eq_true, if_false, ht, if_true]
  · intro hp
    subst hp
    rfl

/-- Witness for the amended C7: a nonexistent png path fails and leaves the
initial history untouched, while an existing two-byte file is encoded — the
base64 of the bytes of Ma is TWE= — attached, appended and counted. -/
theorem assemble_spec_witness :
    (Messages.assemble [] Messages.init "hi" (some "a.png")).2.1 = false ∧
    (Messages.assemble [] Messages.init "hi" (some "a.png")).1 = Messages.init ∧
    (Messages.assemble [("b.png", [77, 97])] Messages.init "hi" (some "b.png")) =
      ({ messages := [{ role := "user", content := "hi", images := some ["TWE="] }],
         session_counter := 1, user_counter := 1, ai_counter := 0 }, true,
        userLoadedMsg) := by
  have h1 := (assemble_spec [] Messages.init "hi" "a.png").1 (by decide)
      (by with_unfolding_all decide)
  have h2 := (assemble_spec [("b.png", [77, 97])] Messages.init "hi" "b.png").2.1
      (by decide) (by with_unfolding_all decide)
  refine ⟨?_, ?_, ?_⟩
  · rw [h1]
  · rw [h1]
  · rw [h2]
    with_unfolding_all decide

/-- One operation on the conversation history, carrying the external input
it consumes: an assemble with its content and image path, a launch with the
backend response it receives, or a clear. -/
inductive Op where
  | assembleOp (content : String) (image_path : Option String)
  | launchOp (resp : HttpResult)
  | clearOp
deriving DecidableEq

/-- Run one operation against a history state. -/
def stepOp (fs : FS) (backend : Backend) (st : Messages) : Op → Messages
  | Op.assembleOp c p => (st.assemble fs c p).1
  | Op.launchOp r => (st.launch backend r).2.1
  | Op.clearOp => st.clear

/-- Run a list of operations from the initial history. -/
def execOps (fs : FS) (backend : Backend) (ops : List Op) : Messages :=
  ops.foldl (stepOp fs backend) Messages.init

/-- Number of messages of a given role in a message list. -/
def countRole (role : String) (l : List Message) : ℕ :=
  (l.filter fun m => m.role == role).length

/-- Whether an assemble with this image path appends a message. -/
def assembleOk (fs : FS) : Option String → Bool
  | none => true
  | some p => p.isEmpty || (image2base64 fs p).1

/-- Whether a launch with this response appends a message. -/
def launchOk : HttpResult → Bool
  | HttpResult.ok (some _) => true
  | _ => false

/-- The counter bookkeeping the amended claim describes: fold one operation
into the pair (messages appended by assemble, messages appended by launch)
since the last clear. -/
def countStep (fs : FS) (acc : ℕ × ℕ) : Op → ℕ × ℕ
  | Op.assembleOp _ p => if assembleOk fs p then (acc.1 + 1, acc.2) else acc
  | Op.launchOp r => if launchOk r then (acc.1, acc.2 + 1) else acc
  | Op.clearOp => (0, 0)

/-- The per-trace append counts since the last clear. -/
def traceCounts (fs : FS) (ops : List Op) : ℕ × ℕ :=
  ops.foldl (countStep fs) (0, 0)

/-- Whether an operation that appends a backend response carries an
assistant-role message. -/
def assistantRole : Op → Bool
  | Op.launchOp (HttpResult.ok (some m)) => m.role == "assistant"
  | _ => true

/-- What assemble does to the state: when the image path is absent, falsy
or encodable it appends one user-role message and counts it, else it leaves
the state alone. -/
theorem assemble_state (fs : FS) (self : Messages) (content : String)
    (ip : Option String) :
    (assembleOk fs ip = true ∧ ∃ m : Message, m.role = "user" ∧
      (self.assemble fs content ip).1 =
        { self with
            messages := self.messages ++ [m],
            user_counter := self.user_counter + 1 }) ∨
    (assembleOk fs ip = false ∧ (self.assemble fs content ip).1 = self) := by
  cases ip with
  | none =>
      exact Or.inl ⟨rfl, { role := "user", content := content }, rfl, rfl⟩
  | some p =>
      by_cases hp : p.isEmpty
      · refine Or.inl ⟨by simp [assembleOk, hp], { role := "user", content := content }, rfl, ?_⟩
        simp only [Messages.assemble, hp, if_true]
      · by_cases he : (image2base64 fs p).1
        · refine Or.inl ⟨by simp [assembleOk, he],
            { role := "user", content := content,
              images := some [(image2base64 fs p).2] }, rfl, ?_⟩
          simp only [Messages.assemble, hp, Bool.false_eq_true, if_false, he, if_true]
        · refine Or.inr ⟨by simp [assembleOk, hp, he], ?_⟩
          simp only [Messages.assemble, hp, Bool.false_eq_true, if_false, he]

/-- What launch does to the state: a successful response with a message
field appends exactly that message and counts it, anything else leaves the
state alone. -/
theorem launch_state (backend : Backend) (self : Messages) (r : HttpResult) :
    (∃ m : Message, r = HttpResult.ok (some m) ∧ launchOk r = true ∧
      (self.launch backend r).2.1 =
        { self with
            messages := self.messages ++ [m],
            ai_counter := self.ai_counter + 1 }) ∨
    (launchOk r = false ∧ (self.launch backend r).2.1 = self) := by
  cases r with
  | ok om =>
      cases om with
      | some m => exact Or.inl ⟨m, rfl, rfl, rfl⟩
      | none => exact Or.inr ⟨rfl, rfl⟩
  | exn e => exact Or.inr ⟨rfl, rfl⟩

/-- Appending one message changes one role count by exactly its role. -/
theorem countRole_append (role : String) (l : List Message) (m : Message) :
    countRole role (l ++ [m]) =
      countRole role l + (if m.role == role then 1 else 0) := by
  simp only [countRole, List.filter_append]
  cases h : m.role == role <;> simp [h]

/-- The history counters track the append counts, from any aligned start. -/
theorem foldl_counts (fs : FS) (backend : Backend) (ops : List Op) :
    ∀ (st : Messages) (acc : ℕ × ℕ), st.user_counter = acc.1 → st.ai_counter = acc.2 →
    (ops.foldl (stepOp fs backend) st).user_counter = (ops.foldl (countStep fs) acc).1 ∧
    (ops.foldl (stepOp fs backend) st).ai_counter = (ops.foldl (countStep fs) acc).2 := by
  induction ops with
  | nil => intro st acc h1 h2; exact ⟨h1, h2⟩
  | cons op ops ih =>
      intro st acc h1 h2
      simp only [List.foldl_cons]
      have hstep : (stepOp fs backend st op).user_counter = (countStep fs acc op).1 ∧
          (stepOp fs backend st op).ai_counter = (countStep fs acc op).2 := by
        cases op with
        | assembleOp c p =>
            rcases assemble_state fs st c p with ⟨hok, m, _, hst⟩ | ⟨hok, hst⟩
            · simp [stepOp, countStep, hst, hok, h1, h2]
            · simp [stepOp, countStep, hst, hok, h1, h2]
        | launchOp r =>
            rcases launch_state backend st r with ⟨m, hr, hok, hst⟩ | ⟨hok, hst⟩
            · subst hr
              simp [stepOp, countStep, hst, hok, h1, h2]
            · simp [stepOp, countStep, hst, hok, h1, h2]
        | clearOp => simp [stepOp, countStep, Messages.clear]
      exact ih _ _ hstep.1 hstep.2

/-- When every appended backend response carries role assistant, the
counters agree with the per-role message counts, from any aligned start. -/
theorem foldl_roles (fs : FS) (backend : Backend) (ops : List Op) :
    ∀ st : Messages, ops.all assistantRole = true →
    st.user_counter = countRole "user" st.messages →
    st.ai_counter = countRole "assistant" st.messages →
    (ops.foldl (stepOp fs backend) st).user_counter =
      countRole "user" (ops.foldl (stepOp fs backend) st).messages ∧
    (ops.foldl (stepOp fs backend) st).ai_counter =
      countRole "assistant" (ops.foldl (stepOp fs backend) st).messages := by
  induction ops with
  | nil => intro st _ h1 h2; exact ⟨h1, h2⟩
  | cons op ops ih =>
      intro st hall h1 h2
      rw [List.all_cons, Bool.and_eq_true] at hall
      simp only [List.foldl_cons]
      have hstep : (stepOp fs backend st op).user_counter =
          countRole "user" (stepOp fs backend st op).messages ∧
          (stepOp fs backend st op).ai_counter =
          countRole "assistant" (stepOp fs backend st op).messages := by
        cases op with
        | assembleOp c p =>
            rcases assemble_state fs st c p with ⟨_, m, hrole, hst⟩ | ⟨_, hst⟩
            · simp only [stepOp, hst]
              constructor
              · simp [countRole_append, hrole, h1]
              · simp [countRole_append, hrole, h2]
            · simp only [stepOp, hst]
              exact ⟨h1, h2⟩
        | launchOp r =>
            rcases launch_state backend st r with ⟨m, hr, _, hst⟩ | ⟨_, hst⟩
            · subst hr
              have hrole : m.role = "assistant" := by
                have := hall.1
                simp only [assistantRole, beq_iff_eq] at this
                exact this
              simp only [stepOp, hst]
              constructor
              · simp [countRole_append, hrole, h1]
              · simp [countRole_append, hrole, h2]
            · simp only [stepOp, hst]
              exact ⟨h1, h2⟩
        | clearOp => simp [stepOp, Messages.clear, countRole]
      exact ih _ hall.2 hstep.1 hstep.2

/-- C2 counterexample: starting from the cleared initial state, one launch
whose backend response message carries role user bumps the assistant
counter to one although no assistant-role message was appended, while the
one appended user-role message is not counted by the user counter. -/
theorem counters_role_counterexample :
    (execOps [] Backend.init
      [Op.launchOp (HttpResult.ok (some { role := "user", content := "hi" }))]).ai_counter = 1 ∧
    countRole "assistant"
      (execOps [] Backend.init
        [Op.launchOp (HttpResult.ok (some { role := "user", content := "hi" }))]).messages = 0 ∧
    (execOps [] Backend.init
      [Op.launchOp (HttpResult.ok (some { role := "user", content := "hi" }))]).user_counter = 0 ∧
    countRole "user"
      (execOps [] Backend.init
        [Op.launchOp (HttpResult.ok (some { role := "user", content := "hi" }))]).messages = 1 := by
  refine ⟨?_, ?_, ?_, ?_⟩ <;> with_unfolding_all decide

/-- C2 amended: along every operation trace from the initial state, the
user counter equals the number of messages appended by assemble since the
last clear and the assistant counter equals the number of messages appended
by launch since the last clear; both start at zero, and a clear resets both
to zero while advancing the session counter by one; moreover, whenever
every appended backend response carries role assistant — assembled messages
always carry role user — the counters equal the per-role message counts the
claim states. -/
theorem counters_spec (fs : FS) (backend : Backend) (ops : List Op) :
    (execOps fs backend ops).user_counter = (traceCounts fs ops).1 ∧
    (execOps fs backend ops).ai_counter = (traceCounts fs ops).2 ∧
    (execOps fs backend (ops ++ [Op.clearOp])).user_counter = 0 ∧
    (execOps fs backend (ops ++ [Op.clearOp])).ai_counter = 0 ∧
    (execOps fs backend (ops ++ [Op.clearOp])).session_counter =
      (execOps fs backend ops).session_counter + 1 ∧
    (ops.all assistantRole = true →
      (execOps fs backend ops).user_counter =
        countRole "user" (execOps fs backend ops).messages ∧
      (execOps fs backend ops).ai_counter =
        countRole "assistant" (execOps fs backend ops).messages) := by
  have hc := foldl_counts fs backend ops Messages.init (0, 0) rfl rfl
  refine ⟨hc.1, hc.2, ?_, ?_, ?_, ?_⟩
  · unfold execOps
    rw [List.foldl_append]
    rfl
  · unfold execOps
    rw [List.foldl_append]
    rfl
  · unfold execOps
    rw [List.foldl_append]
    rfl
  · intro hall
    exact foldl_roles fs backend ops Messages.init hall rfl rfl

/-- Witness for the amended C2 on a concrete assistant-role trace: one
assemble and one assistant-role launch leave both counters equal to the
role counts, and a subsequent clear zeroes them and advances the session. -/
theorem counters_spec_witness :
    ((execOps [] Backend.init
        [Op.assembleOp "q" none,
          Op.launchOp (HttpResult.ok (some { role := "assistant", content := "a" }))]).user_counter =
      countRole "user"
        (execOps [] Backend.init
          [Op.assembleOp "q" none,
            Op.launchOp (HttpResult.ok (some { role := "assistant", content := "a" }))]).messages ∧
    (execOps [] Backend.init
        [Op.assembleOp "q" none,
          Op.launchOp (HttpResult.ok (some { role := "assistant", content := "a" }))]).ai_counter =
      countRole "assistant"
        (execOps [] Backend.init
          [Op.assembleOp "q" none,
            Op.launchOp (HttpResult.ok (some { role := "assistant", content := "a" }))]).messages) ∧
    (execOps [] Backend.init
        [Op.assembleOp "q" none,
          Op.launchOp (HttpResult.ok (some { role := "assistant", content := "a" })),
          Op.clearOp]).user_counter = 0 ∧
    (execOps [] Backend.init
        [Op.assembleOp "q" none,
          Op.launchOp (HttpResult.ok (some { role := "assistant", content := "a" })),
          Op.clearOp]).ai_counter = 0 := by
  refine ⟨?_, ?_, ?_⟩
  · exact
      (counters_spec [] Backend.init
        [Op.assembleOp "q" none,
          Op.launchOp (HttpResult.ok (some { role := "assistant", content := "a" }))]).2.2.2.2.2
        (by decide)
  · with_unfolding_all decide
  · with_unfolding_all decide

/-- The parsed options of the ai cell magic: the optional image path, the
format choice and the clear flag. -/
structure Args where
  image : Option String
  format : String
  clear : Bool
deriving DecidableEq

/-- What one invocation of the ai cell magic did: the final history state,
the log entries, every chat request sent, and whether a response was
displayed. -/
structure AiResult where
  messages : Messages
  logs : List LogEntry
  sent : List Payload
  displayed : Bool
deriving DecidableEq

/-- The info message logged before launching. -/
def sendingMsg (backend : Backend) : String :=
  let m := backend.model
  s!"Sending session request to {m}."

/-- The ai cell magic of aisle/_main.py after option parsing, with the
generate_timestamp clock passed in as the sequence ts of timestamp strings
and the backend response passed in: clear the history when requested and
log it; assemble the user message — on failure log the error and return;
log the assembly message and the target model; launch — on failure log the
error and return; display the newest exchange and log completion.  The
rendering of the display is outside the embedded claims; the displayed
flag records that it happened. -/
def ai (backend : Backend) (fs : FS) (ts : ℕ → String) (resp : HttpResult)
    (args : Args) (cell : String) (st0 : Messages) (logs0 : List LogEntry) :
    AiResult :=
  let st1 := if args.clear then st0.clear else st0
  let logs1 :=
    if args.clear then Logs.info logs0 (ts 0) "Cleared session memory." else logs0
  let k1 := if args.clear then 1 else 0
  let ar := st1.assemble fs cell args.image
  if ar.2.1 then
    let logs2 := Logs.info logs1 (ts k1) ar.2.2
    let logs3 := Logs.info logs2 (ts (k1 + 1)) (sendingMsg backend)
    let lr := ar.1.launch backend resp
    if lr.2.2.1 then
      let logs4 := Logs.info logs3 (ts (k1 + 2)) lr.2.2.2
      { messages := lr.2.1,
        logs := Logs.info logs4 (ts (k1 + 3)) "AI response display completed.",
        sent := [lr.1], displayed := true }
    else
      { messages := lr.2.1, logs := Logs.error logs3 (ts (k1 + 2)) lr.2.2.2,
        sent := [lr.1], displayed := false }
  else
    { messages := ar.1, logs := Logs.error logs1 (ts k1) ar.2.2, sent := [],
      displayed := false }

/-- C8: when assembling the user message fails, the ai command logs the
error and stops: no chat request is sent, nothing is displayed, the history
is exactly what it was after the optional clear, and the log gains exactly
the optional clear info entry followed by the assembly error entry. -/
theorem ai_assemble_failure (backend : Backend) (fs : FS) (ts : ℕ → String)
    (resp : HttpResult) (args : Args) (cell : String) (st0 : Messages)
    (logs0 : List LogEntry)
    (hfail : ((if args.clear then st0.clear else st0).assemble fs cell
      args.image).2.1 = false) :
    (ai backend fs ts resp args cell st0 logs0).sent = [] ∧
    (ai backend fs ts resp args cell st0 logs0).displayed = false ∧
    (ai backend fs ts resp args cell st0 logs0).messages =
      (if args.clear then st0.clear else st0) ∧
    (ai backend fs ts resp args cell st0 logs0).logs =
      Logs.error
        (if args.clear then Logs.info logs0 (ts 0) "Cleared session memory."
          else logs0)
        (ts (if args.clear then 1 else 0))
        ((if args.clear then st0.clear else st0).assemble fs cell args.image).2.2 := by
  have hstate := assemble_fail_state fs (if args.clear then st0.clear else st0)
      cell args.image hfail
  unfold ai
  simp only [hfail, Bool.false_eq_true, if_false, hstate]
  exact ⟨trivial, trivial, trivial, trivial⟩

/-- Witness for C8: with no clear flag, a nonexistent image path makes the
command stop after logging the single error entry; nothing is sent, nothing
is displayed, and the history stays initial. -/
theorem ai_assemble_failure_witness :
    (ai Backend.init [] (fun _ => "T") (HttpResult.ok none)
        { image := some "nope.png", format := "markdown", clear := false }
        "hi" Messages.init []).sent = [] ∧
    (ai Backend.init [] (fun _ => "T") (HttpResult.ok none)
        { image := some "nope.png", format := "markdown", clear := false }
        "hi" Messages.init []).displayed = false ∧
    (ai Backend.init [] (fun _ => "T") (HttpResult.ok none)
        { image := some "nope.png", format := "markdown", clear := false }
        "hi" Messages.init []).messages = Messages.init ∧
    (ai Backend.init [] (fun _ => "T") (HttpResult.ok none)
        { image := some "nope.png", format := "markdown", clear := false }
        "hi" Messages.init []).logs.length = 1 := by
  have h := ai_assemble_failure Backend.init [] (fun _ => "T") (HttpResult.ok none)
      { image := some "nope.png", format := "markdown", clear := false }
      "hi" Messages.init [] (by with_unfolding_all decide)
  refine ⟨h.1, h.2.1, ?_, ?_⟩
  · rw [h.2.2.1]
    rfl
  · rw [h.2.2.2]
    rfl

end Aisle
